import Mathlib

/-!
Verification of the voice-interaction pipeline (`src/main.rs`) against its
natural-language specification.  Strings are modelled as `List Char` at the
character level (all inputs considered here are ASCII, where Rust byte
indices and character indices coincide); machine integers as `Nat`; fallible
operations (Rust slicing panics, `unwrap`, fatal HTTP errors) as `Option` /
`Except`.
-/

/-- `escape_json` from `src/main.rs` lines 155-163: folds over the characters,
replacing backslash, double quote, newline and apostrophe by two-character
escape sequences and keeping every other character.  The Rust fold appends to
an accumulator left to right; the recursion below produces the same string. -/
def escape_json : List Char → List Char
  | [] => []
  | c :: cs =>
    (if c = '\\' then ['\\', '\\']
     else if c = '"' then ['\\', '"']
     else if c = '\n' then ['\\', 'n']
     else if c = '\'' then ['\\', '\'']
     else [c]) ++ escape_json cs

/-- Lowercase hex digit for a value below 16 (as emitted by serde_json's
`\u00XX` escapes for control characters). -/
def hexDigit (n : Nat) : Char :=
  if n < 10 then Char.ofNat (48 + n) else Char.ofNat (87 + n)

/-- Is the character a decimal digit or a lowercase hex letter. -/
def isHexL (c : Char) : Bool :=
  decide (('0' ≤ c ∧ c ≤ '9') ∨ ('a' ≤ c ∧ c ≤ 'f'))

/-- Numeric value of a (lowercase) hex digit. -/
def hexVal (c : Char) : Nat :=
  if c ≤ '9' then c.toNat - 48 else c.toNat - 87

/-- The character denoted by a `\u00XX` escape with hex digits `e f`. -/
def uChar (e f : Char) : Char := Char.ofNat (16 * hexVal e + hexVal f)

/-- The single-character JSON escapes of RFC 8259 (`\" \\ \/ \n \t \r \b \f`).
JSON defines no `\'` escape, so an apostrophe after a backslash yields `none`. -/
def escChar (d : Char) : Option Char :=
  if d = '"' then some '"'
  else if d = '\\' then some '\\'
  else if d = '/' then some '/'
  else if d = 'n' then some '\n'
  else if d = 't' then some '\t'
  else if d = 'r' then some '\r'
  else if d = 'b' then some (Char.ofNat 8)
  else if d = 'f' then some (Char.ofNat 12)
  else none

mutual

/-- Modelled from the spec: decoding of the body of a JSON string literal
(the spec's "embedded in a JSON string literal, decodes back" obligation;
no such decoder exists in the repository), following the RFC 8259 string
grammar.  Escapes are those RFC 8259 defines: the single-character escapes
plus `\u00XX` (the only `\u` form the serializer below ever emits); a
backslash followed by anything else — in particular `\'` — is invalid, as is
an unescaped double quote (it would terminate the literal early) and an
unescaped control character (U+0000-U+001F), which the grammar requires to be
escaped.  Any other character stands for itself. -/
def jsonUnescape : List Char → Option (List Char)
  | [] => some []
  | [c] => if c = '\\' ∨ c = '"' ∨ c.toNat < 32 then none else some [c]
  | c :: d :: cs =>
    if c = '\\' then
      if d = 'u' then jsonUnescapeU cs
      else
        match escChar d with
        | some d2 => (jsonUnescape cs).map (fun t => d2 :: t)
        | none => none
    else if c = '"' then none
    else if c.toNat < 32 then none
    else (jsonUnescape (d :: cs)).map (fun t => c :: t)

/-- The continuation of `jsonUnescape` after a `\u` escape: exactly the
`\u00XX` form (two zero digits, two lowercase hex digits) is accepted. -/
def jsonUnescapeU : List Char → Option (List Char)
  | a :: b :: e :: f :: cs' =>
    if a = '0' ∧ b = '0' ∧ isHexL e = true ∧ isHexL f = true then
      (jsonUnescape cs').map (fun t => uChar e f :: t)
    else none
  | _ => none

end

/-- serde_json's serialization of one character inside a string literal
(as performed by `Value::to_string()` on the turn objects built at
`src/main.rs` lines 37 and 105): `"` `\` and the named control characters
get two-character escapes, any other control character a `\u00XX` escape,
and every other character is copied verbatim. -/
def serdeEncodeChar (c : Char) : List Char :=
  if c = '"' then ['\\', '"']
  else if c = '\\' then ['\\', '\\']
  else if c = '\n' then ['\\', 'n']
  else if c = '\r' then ['\\', 'r']
  else if c = '\t' then ['\\', 't']
  else if c = Char.ofNat 8 then ['\\', 'b']
  else if c = Char.ofNat 12 then ['\\', 'f']
  else if c.toNat < 32 then ['\\', 'u', '0', '0', hexDigit (c.toNat / 16), hexDigit (c.toNat % 16)]
  else [c]

/-- serde_json's serialization of a whole string body. -/
def serdeEncode : List Char → List Char
  | [] => []
  | c :: cs => serdeEncodeChar c ++ serdeEncode cs

/-- The four characters `escape_json` treats specially. -/
def isSpec (c : Char) : Bool :=
  decide (c = '\\' ∨ c = '"' ∨ c = '\n' ∨ c = '\'')

/-- Rust range slicing `&s[a..b]` (`src/main.rs` line 135), at character
level: defined exactly when `a ≤ b ≤ s.length`; `none` models the
index-out-of-range panic. -/
def sliceR (s : List Char) (a b : Nat) : Option (List Char) :=
  if a ≤ b ∧ b ≤ s.length then some ((s.drop a).take (b - a)) else none

/-- Rust suffix slicing `&s[a..]`: defined exactly when `a ≤ s.length`. -/
def sliceFrom (s : List Char) (a : Nat) : Option (List Char) :=
  if a ≤ s.length then some (s.drop a) else none

/-- The style-directive handling of the synthesizer (`src/main.rs` lines
133-136): if the reply starts with a colon, compute
`pos = find(" ").unwrap_or(len) + 1`, slice `&resp[1..pos]` as the style
token and `&resp[pos+1..]` as the spoken text, and wrap the text in an
`<mstts:express-as>` element; otherwise the reply is used verbatim.
`none` models a slicing panic. -/
def styleWrap (resp : List Char) : Option (List Char) :=
  if resp.head? = some ':' then
    let pos := ((resp.findIdx? (fun c => c = ' ')).getD resp.length) + 1
    match sliceR resp 1 pos, sliceFrom resp (pos + 1) with
    | some style, some rest =>
      some ("<mstts:express-as style='".data ++ style ++ "'>".data
            ++ rest ++ "</mstts:express-as>".data)
    | _, _ => none
  else some resp

/-- The trigger-key events of the hotkey listener.  `rdev::Key` restricted to
the constructors relevant here: the default key `F1`, the configurable
`Unknown` code, and representatives of the other named keys. -/
inductive RKey where
  | F1 : RKey
  | F2 : RKey
  | KeyA : RKey
  | Escape : RKey
  | Unknown : Nat → RKey
deriving DecidableEq

/-- An `rdev` event as observed by the listener callback (`src/main.rs`
lines 73-75): a key press or a key release. -/
inductive RdevEvent where
  | keyPress : RKey → RdevEvent
  | keyRelease : RKey → RdevEvent
deriving DecidableEq

/-- The trigger key (`src/main.rs` lines 66-70): `Key::Unknown(k)` when a
keycode `k` is configured, the default `Key::F1` otherwise. -/
def triggerKey : Option Nat → RKey
  | some k => RKey.Unknown k
  | none => RKey.F1

/-- Whether the listener callback sends a signal for event `e`
(`src/main.rs` lines 72-76): exactly on a key-press whose key equals the
trigger key. -/
def listenerEmits (keycode : Option Nat) (e : RdevEvent) : Bool :=
  match e with
  | RdevEvent.keyPress k => decide (k = triggerKey keycode)
  | RdevEvent.keyRelease _ => false

/-- Events on the listener/loop channel: `press` models `tx.send(())` from
the listener (a matching key press), `recv` models `rx.recv()` in the main
loop removing one signal. -/
inductive ChanEvent where
  | press : ChanEvent
  | recv : ChanEvent
deriving DecidableEq

/-- Number of pending signals in the channel after a trace of events.  The
channel at `src/main.rs` line 64 is `std::sync::mpsc::channel()`, the
unbounded asynchronous variant: every send enqueues one more signal. -/
def chanPending (evs : List ChanEvent) : Nat :=
  evs.foldl (fun n e => match e with | ChanEvent.press => n + 1 | ChanEvent.recv => n - 1) 0

/-- A trace is valid when no prefix receives more signals than were sent
(a blocking `recv` can only fire while a signal is pending). -/
def validTrace (evs : List ChanEvent) : Bool :=
  (List.range (evs.length + 1)).all
    (fun i => (evs.take i).count ChanEvent.recv ≤ (evs.take i).count ChanEvent.press)

/-- The eviction step at `src/main.rs` line 124, run once per cycle after the
chat call: `if messages.len() >= msg_limit { messages.pop_front(); }`. -/
def evictStep (limit : Nat) (msgs : List String) : List String :=
  if limit ≤ msgs.length then msgs.drop 1 else msgs

/-- One cycle's effect on the history buffer as far as appends are concerned:
the push of the new turn (`push_back`, line 105) followed by the conditional
pop (line 124). -/
def cycleHist (limit : Nat) (msgs : List String) (t : String) : List String :=
  evictStep limit (msgs ++ [t])

/-- The last `n` elements of a list. -/
def lastN (n : Nat) (xs : List String) : List String :=
  xs.drop (xs.length - n)

/-- The serde_json string serialization of the turn object
`json!({ "role": r, "content": escape_json(text) }).to_string()` built at
`src/main.rs` lines 37 and 105: serde_json's map is key-sorted, so
`content` is printed before `role`, and the content string is the
`escape_json`-escaped text passed through serde's own string escaping. -/
def mkTurnStr (role content : String) : String :=
  "\x7b\"content\":\"" ++ String.mk (serdeEncode (escape_json content.data))
    ++ "\",\"role\":\"" ++ role ++ "\"\x7d"

/-- The stored system prompt (`src/main.rs` lines 34-38): the empty string
when the configured prompt is empty, otherwise the serialized system turn. -/
def promptConfig (s : String) : String :=
  if s = "" then "" else mkTurnStr "system" s

/-- The folded closure of `src/main.rs` lines 113-114: append the turn, with
a comma after it except at index `len - 1` (the `N` parameter is the length
of the whole buffer, captured by the Rust closure). -/
def joinStep (N : Nat) (acc : String) (p : Nat × String) : String :=
  if p.1 = N - 1 then acc ++ p.2 else acc ++ p.2 ++ ","

/-- The comma join of the stored messages (`src/main.rs` lines 113-114):
a fold of `joinStep` over the enumerated buffer. -/
def joinMsgs (msgs : List String) : String :=
  msgs.enum.foldl (joinStep msgs.length) ""

/-- Comma-separated concatenation, for stating what `joinMsgs` computes. -/
def intercalateComma : List String → String
  | [] => ""
  | [m] => m
  | m :: ms => m ++ "," ++ intercalateComma ms

/-- The rendered `messages` array of the chat request (`src/main.rs` lines
111-114): `[` then the stored prompt, then a comma exactly when the prompt
is non-empty, then a space, then the joined buffer, then `]`. -/
def messagesArray (p : String) (msgs : List String) : String :=
  "[" ++ p ++ (if p = "" then "" else ",") ++ " " ++ joinMsgs msgs ++ "]"

/-- The full chat request body of `src/main.rs` line 111. -/
def chatBody (p : String) (msgs : List String) : String :=
  "\x7b \"model\": \"gpt-4o\", \"messages\": " ++ messagesArray p msgs ++ " \x7d"

/-- The fragment of `serde_json::Value` the pipeline inspects. -/
inductive JVal where
  | str : String → JVal
  | num : Int → JVal
  | bool : Bool → JVal
  | null : JVal
  | arr : List JVal → JVal
  | obj : List (String × JVal) → JVal

/-- `Value::get` on an object key (`serde_json` field lookup, as used by
`.get_mut("text")` etc.); `none` when absent or not an object. -/
def JVal.getKey : JVal → String → Option JVal
  | JVal.obj fs, k => (fs.find? (fun f => f.1 == k)).map (fun f => f.2)
  | _, _ => none

/-- `Value::get` on an array index. -/
def JVal.getIdx : JVal → Nat → Option JVal
  | JVal.arr xs, i => xs.get? i
  | _, _ => none

/-- An HTTP response as the pipeline sees it: status code, body text, and
the result of `serde_json` parsing the body (`none` when unparseable; the
parser itself is external to the repository). -/
structure HttpResponse where
  status : Nat
  body : String
  json : Option JVal

/-- `check_err` from `src/main.rs` lines 148-153: `error_for_status_ref`
errors exactly for client errors (400-499) and server errors (500-599), in
which case the code panics with a diagnostic carrying the reqwest error
(whose display includes the status) and the response body; modelled as an
`Except.error` whose message holds the status and the literal body. -/
def check_err (r : HttpResponse) : Except String HttpResponse :=
  if 400 ≤ r.status ∧ r.status ≤ 599 then
    Except.error ("Error: status " ++ toString r.status ++ ", " ++ r.body)
  else Except.ok r

/-- One pipeline cycle from the transcription call through the history
update (`src/main.rs` lines 93-124), given the two HTTP responses: check the
transcription response, extract its `text` field (panic when missing or not
a string), push the user turn, check the chat response, descend
`choices[0].message.content` (panic on any shape mismatch), then run the
eviction step.  Returns the new buffer and the reply text; `Except.error`
models the fatal paths.  The synthesis and playback stages that follow do
not touch the buffer. -/
def runCycle (limit : Nat) (msgs : List String) (trR chR : HttpResponse) :
    Except String (List String × String) :=
  match check_err trR with
  | Except.error e => Except.error e
  | Except.ok tr =>
    match tr.json with
    | none => Except.error "json decode error"
    | some trJson =>
      match trJson.getKey "text" with
      | some (JVal.str txt) =>
        (match check_err chR with
         | Except.error e => Except.error e
         | Except.ok ch =>
           match ch.json with
           | none => Except.error "json decode error"
           | some chJson =>
             match ((chJson.getKey "choices").bind (fun v => v.getIdx 0)
                 |>.bind (fun v => v.getKey "message")
                 |>.bind (fun v => v.getKey "content")) with
             | some (JVal.str content) =>
               Except.ok (evictStep limit (msgs ++ [mkTurnStr "user" txt]), content)
             | _ => Except.error "Invalid response")
      | some _ => Except.error "Invalid response"
      | none => Except.error "unwrap of None"

/-- The history buffer after a cycle: the updated buffer on success, the
untouched buffer when the cycle aborted (the process dies with the buffer
as it was). -/
def historyAfterCycle (limit : Nat) (msgs : List String) (trR chR : HttpResponse) :
    List String :=
  match runCycle limit msgs trR chR with
  | Except.ok (m, _) => m
  | Except.error _ => msgs

/-- The mocked transcription response of the end-to-end scenario. -/
def mockTrOk : HttpResponse :=
  ⟨200, "\x7b\"text\": \"turn the lights on\"\x7d",
   some (JVal.obj [("text", JVal.str "turn the lights on")])⟩

/-- The mocked chat response of the end-to-end scenario. -/
def mockChOk : HttpResponse :=
  ⟨200, "\x7b\"choices\":[...]\x7d",
   some (JVal.obj [("choices", JVal.arr [JVal.obj [("message",
     JVal.obj [("content", JVal.str "Sure, doing that now.")])]])])⟩

/-- The mocked failing transcription response of the fatal-path scenario. -/
def mockTr401 : HttpResponse :=
  ⟨401, "\x7b\"error\":\"invalid key\"\x7d", none⟩

/-- A transcription response with a non-2xx status outside 400-599
(304 Not Modified) whose body happens to parse. -/
def mockTr304 : HttpResponse :=
  ⟨304, "\x7b\"text\":\"hi\"\x7d", some (JVal.obj [("text", JVal.str "hi")])⟩


/-! ## Lemmas about the escaping layer -/

theorem jsonUnescape_plain (c : Char) (t : List Char) (h1 : c ≠ '\\') (h2 : c ≠ '"')
    (h3 : ¬ c.toNat < 32) :
    jsonUnescape (c :: t) = (jsonUnescape t).map (fun r => c :: r) := by
  cases t with
  | nil =>
    rw [jsonUnescape, jsonUnescape, if_neg (fun h => h.elim h1 (fun h' => h'.elim h2 h3))]
    rfl
  | cons d cs =>
    rw [jsonUnescape, if_neg h1, if_neg h2, if_neg h3]

theorem jsonUnescape_esc (d d2 : Char) (t : List Char) (hu : d ≠ 'u')
    (he : escChar d = some d2) :
    jsonUnescape ('\\' :: d :: t) = (jsonUnescape t).map (fun r => d2 :: r) := by
  rw [jsonUnescape, if_pos rfl, if_neg hu, he]

theorem jsonUnescape_u (e f : Char) (t : List Char) (he : isHexL e = true)
    (hf : isHexL f = true) :
    jsonUnescape ('\\' :: 'u' :: '0' :: '0' :: e :: f :: t)
      = (jsonUnescape t).map (fun r => uChar e f :: r) := by
  rw [jsonUnescape, if_pos rfl, if_pos rfl, jsonUnescapeU, if_pos ⟨rfl, rfl, he, hf⟩]

theorem hexDigit_ok : ∀ n, n < 16 → isHexL (hexDigit n) = true ∧ hexVal (hexDigit n) = n := by
  decide

theorem serde_roundtrip (t : List Char) : jsonUnescape (serdeEncode t) = some t := by
  induction t with
  | nil => rfl
  | cons c cs ih =>
    show jsonUnescape (serdeEncodeChar c ++ serdeEncode cs) = some (c :: cs)
    by_cases h1 : c = '"'
    · subst h1
      rw [show serdeEncodeChar '"' ++ serdeEncode cs = '\\' :: '"' :: serdeEncode cs from rfl,
        jsonUnescape_esc '"' '"' _ (by decide) (by decide), ih]
      rfl
    · by_cases h2 : c = '\\'
      · subst h2
        rw [show serdeEncodeChar '\\' ++ serdeEncode cs = '\\' :: '\\' :: serdeEncode cs from rfl,
          jsonUnescape_esc '\\' '\\' _ (by decide) (by decide), ih]
        rfl
      · by_cases h3 : c = '\n'
        · subst h3
          rw [show serdeEncodeChar '\n' ++ serdeEncode cs = '\\' :: 'n' :: serdeEncode cs from rfl,
            jsonUnescape_esc 'n' '\n' _ (by decide) (by decide), ih]
          rfl
        · by_cases h4 : c = '\r'
          · subst h4
            rw [show serdeEncodeChar '\r' ++ serdeEncode cs = '\\' :: 'r' :: serdeEncode cs from
                rfl,
              jsonUnescape_esc 'r' '\r' _ (by decide) (by decide), ih]
            rfl
          · by_cases h5 : c = '\t'
            · subst h5
              rw [show serdeEncodeChar '\t' ++ serdeEncode cs = '\\' :: 't' :: serdeEncode cs from
                  rfl,
                jsonUnescape_esc 't' '\t' _ (by decide) (by decide), ih]
              rfl
            · by_cases h6 : c = Char.ofNat 8
              · subst h6
                rw [show serdeEncodeChar (Char.ofNat 8) ++ serdeEncode cs
                      = '\\' :: 'b' :: serdeEncode cs from rfl,
                  jsonUnescape_esc 'b' (Char.ofNat 8) _ (by decide) (by decide), ih]
                rfl
              · by_cases h7 : c = Char.ofNat 12
                · subst h7
                  rw [show serdeEncodeChar (Char.ofNat 12) ++ serdeEncode cs
                        = '\\' :: 'f' :: serdeEncode cs from rfl,
                    jsonUnescape_esc 'f' (Char.ofNat 12) _ (by decide) (by decide), ih]
                  rfl
                · by_cases h8 : c.toNat < 32
                  · have hdiv : c.toNat / 16 < 16 := by omega
                    have hmod : c.toNat % 16 < 16 := Nat.mod_lt _ (by omega)
                    rw [show serdeEncodeChar c
                          = ['\\', 'u', '0', '0', hexDigit (c.toNat / 16),
                             hexDigit (c.toNat % 16)] by
                        rw [serdeEncodeChar]
                        simp [h1, h2, h3, h4, h5, h6, h7, h8]]
                    rw [show (['\\', 'u', '0', '0', hexDigit (c.toNat / 16),
                          hexDigit (c.toNat % 16)] ++ serdeEncode cs)
                        = '\\' :: 'u' :: '0' :: '0' :: hexDigit (c.toNat / 16)
                          :: hexDigit (c.toNat % 16) :: serdeEncode cs from rfl]
                    rw [jsonUnescape_u _ _ _ (hexDigit_ok _ hdiv).1 (hexDigit_ok _ hmod).1, ih]
                    have : uChar (hexDigit (c.toNat / 16)) (hexDigit (c.toNat % 16)) = c := by
                      rw [uChar, (hexDigit_ok _ hdiv).2, (hexDigit_ok _ hmod).2,
                        Nat.div_add_mod, Char.ofNat_toNat]
                    rw [this]
                    rfl
                  · rw [show serdeEncodeChar c = [c] by
                        rw [serdeEncodeChar]
                        simp [h1, h2, h3, h4, h5, h6, h7, h8]]
                    rw [show [c] ++ serdeEncode cs = c :: serdeEncode cs from rfl,
                      jsonUnescape_plain c _ h2 h1 h8, ih]
                    rfl

theorem escape_json_len (s : List Char) :
    (escape_json s).length = s.length + s.countP isSpec := by
  induction s with
  | nil => rfl
  | cons c cs ih =>
    rw [escape_json, List.length_append, ih, List.countP_cons]
    cases hs : isSpec c with
    | true =>
      rw [isSpec] at hs
      rcases of_decide_eq_true hs with h | h | h | h <;> subst h <;> simp <;> omega
    | false =>
      rw [isSpec, decide_eq_false_iff_not] at hs
      push_neg at hs
      obtain ⟨n1, n2, n3, n4⟩ := hs
      rw [if_neg n1, if_neg n2, if_neg n3, if_neg n4]
      simp
      omega

theorem escape_json_ne (s : List Char) (h : ∃ c ∈ s, isSpec c = true) :
    escape_json s ≠ s := by
  intro heq
  have hlen := congrArg List.length heq
  rw [escape_json_len] at hlen
  have hpos : 0 < s.countP isSpec := List.countP_pos_iff.mpr h
  omega

/-! ## Lemmas about the history buffer -/

theorem evict_lastN_step (k : Nat) (pre : List String) (t : String) :
    evictStep (k + 1) (lastN k pre ++ [t]) = lastN k (pre ++ [t]) := by
  have hlen : (lastN k pre).length = pre.length - (pre.length - k) := by
    simp [lastN, List.length_drop]
  by_cases hkn : k ≤ pre.length
  · have hlenk : (lastN k pre).length = k := by rw [hlen]; omega
    rw [evictStep, if_pos (by simp [List.length_append, hlenk])]
    by_cases hk0 : k = 0
    · subst hk0
      rw [List.length_eq_zero.mp hlenk]
      rw [lastN]
      rw [List.drop_eq_nil_of_le (by simp [List.length_append]),
        List.drop_eq_nil_of_le (by simp)]
    · rw [List.drop_append_of_le_length (by rw [hlenk]; omega : 1 ≤ (lastN k pre).length)]
      rw [lastN, lastN, List.drop_drop]
      rw [List.drop_append_of_le_length
        (by simp [List.length_append]; omega : (pre ++ [t]).length - k ≤ pre.length)]
      rw [show (pre.length - k) + 1 = (pre ++ [t]).length - k by
        simp [List.length_append]; omega]
  · have hpre : lastN k pre = pre := by
      rw [lastN, (by omega : pre.length - k = 0), List.drop_zero]
    rw [hpre, evictStep, if_neg (by simp [List.length_append]; omega)]
    rw [lastN, (by simp [List.length_append]; omega : (pre ++ [t]).length - k = 0),
      List.drop_zero]

theorem cycleHist_fold_aux (k : Nat) (ts : List String) :
    ∀ pre, List.foldl (cycleHist (k + 1)) (lastN k pre) ts = lastN k (pre ++ ts) := by
  induction ts with
  | nil => intro pre; simp
  | cons t ts ih =>
    intro pre
    rw [List.foldl_cons,
      show cycleHist (k + 1) (lastN k pre) t = lastN k (pre ++ [t]) from
        evict_lastN_step k pre t,
      ih (pre ++ [t]), List.append_assoc]
    rfl

theorem cycleHist_zero (ts : List String) : List.foldl (cycleHist 0) [] ts = [] := by
  induction ts with
  | nil => rfl
  | cons t ts ih =>
    rw [List.foldl_cons, show cycleHist 0 [] t = [] from rfl]
    exact ih

/-! ## Lemmas about rendering -/

theorem intercalateComma_cons2 (m m2 : String) (ms : List String) :
    intercalateComma (m :: m2 :: ms) = m ++ "," ++ intercalateComma (m2 :: ms) := rfl

theorem joinAux (N : Nat) (ms : List String) :
    ∀ (k : Nat) (acc : String), ms ≠ [] → k + ms.length = N →
      List.foldl (joinStep N) acc (List.enumFrom k ms) = acc ++ intercalateComma ms := by
  induction ms with
  | nil => intro k acc h _; exact absurd rfl h
  | cons m ms ih =>
    intro k acc _ hN
    rw [List.enumFrom_cons, List.foldl_cons]
    cases ms with
    | nil =>
      have hk : k = N - 1 := by
        simp only [List.length_cons, List.length_nil] at hN
        omega
      simp only [List.enumFrom, List.foldl_nil, joinStep, hk, if_pos]
      rfl
    | cons m2 ms2 =>
      have hk : k ≠ N - 1 := by
        simp only [List.length_cons] at hN
        omega
      have h2 := ih (k + 1) (acc ++ m ++ ",") (by simp)
        (by simp only [List.length_cons] at hN ⊢; omega)
      simp only [joinStep, if_neg hk]
      rw [h2, intercalateComma_cons2]
      simp [String.append_assoc]

theorem joinMsgs_eq (msgs : List String) : joinMsgs msgs = intercalateComma msgs := by
  cases msgs with
  | nil => rfl
  | cons m ms =>
    rw [joinMsgs, show (m :: ms).enum = List.enumFrom 0 (m :: ms) from rfl,
      joinAux (m :: ms).length (m :: ms) 0 "" (by simp) (by simp)]
    simp

theorem mkTurnStr_ne (role content : String) : mkTurnStr role content ≠ "" := by
  intro h
  have h2 := congrArg String.length h
  rw [mkTurnStr] at h2
  simp only [String.length_append] at h2
  rw [show ("\x7b\"content\":\"" : String).length = 12 from rfl,
    show ("\",\"role\":\"" : String).length = 10 from rfl,
    show ("\"\x7d" : String).length = 2 from rfl,
    show ("" : String).length = 0 from rfl] at h2
  omega

/-! ## Lemmas about the signal channel -/

theorem chanPending_append_press (evs : List ChanEvent) :
    chanPending (evs ++ [ChanEvent.press]) = chanPending evs + 1 := by
  rw [chanPending, chanPending, List.foldl_append]
  rfl

theorem chanPending_append_recv (evs : List ChanEvent) :
    chanPending (evs ++ [ChanEvent.recv]) = chanPending evs - 1 := by
  rw [chanPending, chanPending, List.foldl_append]
  rfl

theorem validTrace_take (evs : List ChanEvent) (h : validTrace evs = true) (i : Nat) :
    (evs.take i).count ChanEvent.recv ≤ (evs.take i).count ChanEvent.press := by
  rw [validTrace, List.all_eq_true] at h
  by_cases hi : i ≤ evs.length
  · exact of_decide_eq_true (h i (List.mem_range.mpr (by omega)))
  · have h1 := h evs.length (List.mem_range.mpr (by omega))
    rw [List.take_length] at h1
    rw [List.take_of_length_le (by omega)]
    exact of_decide_eq_true h1

theorem validTrace_drop_last (evs : List ChanEvent) (e : ChanEvent)
    (h : validTrace (evs ++ [e]) = true) : validTrace evs = true := by
  rw [validTrace, List.all_eq_true]
  intro i hi
  have hi' : i ≤ evs.length := by
    rw [List.mem_range] at hi
    omega
  have h2 := validTrace_take (evs ++ [e]) h i
  rw [List.take_append_of_le_length hi'] at h2
  exact decide_eq_true h2

/-! ## Claim theorems -/

/-- C1 (counterexample): after one full mocked cycle from an empty buffer with
limit 4, transcription "turn the lights on" and reply "Sure, doing that now.",
the history buffer contains a single turn — the user turn — not the two turns
the claim states: the assistant reply is never appended (`src/main.rs` has no
`push_back` after the chat call, only the `pop_front` at line 124). -/
theorem C1_counterexample :
    historyAfterCycle 4 [] mockTrOk mockChOk = [mkTurnStr "user" "turn the lights on"]
    ∧ (historyAfterCycle 4 [] mockTrOk mockChOk).length = 1
    ∧ (historyAfterCycle 4 [] mockTrOk mockChOk).length ≠ 2 := by
  refine ⟨by decide, by decide, by decide⟩

/-- C1 (amended): on every successful cycle exactly one turn is appended to the
history — the user turn holding the escaped transcript, pushed immediately
after transcription — and the assistant reply is not stored; in particular the
mocked cycle from an empty buffer with limit 4 leaves exactly the user turn. -/
theorem C1_user_turn_only :
    historyAfterCycle 4 [] mockTrOk mockChOk = [mkTurnStr "user" "turn the lights on"]
    ∧ ∀ (limit : Nat) (msgs : List String) (trR chR : HttpResponse)
        (m : List String) (r : String),
        runCycle limit msgs trR chR = Except.ok (m, r) →
        ∃ txt, m = evictStep limit (msgs ++ [mkTurnStr "user" txt]) := by
  refine ⟨by decide, ?_⟩
  intro limit msgs trR chR m r h
  unfold runCycle at h
  repeat' split at h
  all_goals first
    | (simp only [Except.ok.injEq, Prod.mk.injEq] at h
       exact ⟨_, h.1.symm⟩)
    | simp at h

/-- C1 (witness): the amended statement applied to the mocked cycle. -/
theorem C1_user_turn_only_witness :
    ∃ txt, [mkTurnStr "user" "turn the lights on"]
      = evictStep 4 ([] ++ [mkTurnStr "user" txt]) :=
  C1_user_turn_only.2 4 [] mockTrOk mockChOk
    [mkTurnStr "user" "turn the lights on"] "Sure, doing that now." rfl

/-- C2 (counterexample): with limit 1, a single append-cycle leaves the buffer
empty, not holding the last min(1,1) = 1 turn as the claim states: the code
evicts already when the size reaches the limit (`>=` at line 124), not only
when it would exceed it. -/
theorem C2_counterexample :
    List.foldl (cycleHist 1) [] ["t1"] = []
    ∧ List.foldl (cycleHist 1) [] ["t1"] ≠ ["t1"] := by
  refine ⟨rfl, by decide⟩

/-- C2 (amended): each cycle pushes the turn to the back and then pops the
front when the size equals or exceeds the limit `L`; consequently after any
sequence of cycles from an empty buffer the contents are exactly the last
`L - 1` appended turns in order (empty for `L ≤ 1`), and the length at the
end of a cycle never exceeds `L - 1`. -/
theorem C2_evict_when_reaching_limit (L : Nat) (ts : List String) :
    List.foldl (cycleHist L) [] ts = lastN (L - 1) ts
    ∧ (List.foldl (cycleHist L) [] ts).length ≤ L - 1 := by
  have hmain : List.foldl (cycleHist L) [] ts = lastN (L - 1) ts := by
    cases L with
    | zero =>
      rw [cycleHist_zero, show (0 : Nat) - 1 = 0 from rfl, lastN, Nat.sub_zero,
        List.drop_length]
    | succ k =>
      have h := cycleHist_fold_aux k ts []
      rw [show lastN k ([] : List String) = [] by rw [lastN, List.drop_nil],
        List.nil_append] at h
      rw [Nat.succ_sub_one]
      exact h
  refine ⟨hmain, ?_⟩
  rw [hmain, lastN]
  simp only [List.length_drop]
  omega

/-- C3 (code bug): for reply ":cheerful Hello there" the synthesizer's
split position is `find(" ") + 1`, so the produced style token is
"cheerful " (with the separating space) and the spoken text is
"ello there" (first character lost), not the claimed "cheerful" /
"Hello there"; a reply with no leading colon is passed through verbatim. -/
theorem C3_offbyone_eval :
    styleWrap ":cheerful Hello there".data
        = some "<mstts:express-as style='cheerful '>ello there</mstts:express-as>".data
    ∧ styleWrap ":cheerful Hello there".data
        ≠ some "<mstts:express-as style='cheerful'>Hello there</mstts:express-as>".data
    ∧ styleWrap "Hello there".data = some "Hello there".data := by
  refine ⟨by decide, by decide, by decide⟩

/-- C4 (counterexample): the one-character input "'" escapes to the two
characters backslash-apostrophe, which is not a valid escape in a JSON string
literal, so decoding fails instead of returning the original; likewise the
backslash-containing, apostrophe-free input tab-backslash leaves the raw tab
unescaped, which the JSON string grammar forbids, so decoding fails there
too. -/
theorem C4_counterexample :
    escape_json "'".data = ['\\', '\'']
    ∧ jsonUnescape (escape_json "'".data) = none
    ∧ jsonUnescape (escape_json "'".data) ≠ some "'".data
    ∧ escape_json ['\t', '\\'] = ['\t', '\\', '\\']
    ∧ jsonUnescape (escape_json ['\t', '\\']) = none
    ∧ jsonUnescape (escape_json ['\t', '\\']) ≠ some ['\t', '\\'] := by
  refine ⟨by decide, by decide, by decide, by decide, by decide, by decide⟩

/-- C4 (amended): for every input string containing no apostrophe and no raw
control character other than newline (in particular any combination of
backslashes, double quotes and newlines), the escaped form embedded in a JSON
string literal decodes back to exactly the original.  Apostrophes break the
round trip because `\'` is not a JSON escape, and control characters other
than newline break it because `escape_json` passes them through unescaped,
which the JSON string grammar forbids. -/
theorem C4_roundtrip_amended (s : List Char) (h : '\'' ∉ s)
    (hctl : ∀ c ∈ s, c.toNat < 32 → c = '\n') :
    jsonUnescape (escape_json s) = some s := by
  induction s with
  | nil => rfl
  | cons c cs ih =>
    have hc : c ≠ '\'' := by
      rintro rfl
      exact h (List.mem_cons_self _ _)
    have hcs : '\'' ∉ cs := fun hx => h (List.mem_cons_of_mem _ hx)
    have hctlcs : ∀ x ∈ cs, x.toNat < 32 → x = '\n' :=
      fun x hx => hctl x (List.mem_cons_of_mem _ hx)
    rw [escape_json]
    by_cases h1 : c = '\\'
    · subst h1
      rw [if_pos rfl,
        show (['\\', '\\'] ++ escape_json cs) = '\\' :: '\\' :: escape_json cs from rfl,
        jsonUnescape_esc '\\' '\\' _ (by decide) (by decide), ih hcs hctlcs]
      rfl
    · by_cases h2 : c = '"'
      · subst h2
        rw [if_neg h1, if_pos rfl,
          show (['\\', '"'] ++ escape_json cs) = '\\' :: '"' :: escape_json cs from rfl,
          jsonUnescape_esc '"' '"' _ (by decide) (by decide), ih hcs hctlcs]
        rfl
      · by_cases h3 : c = '\n'
        · subst h3
          rw [if_neg h1, if_neg h2, if_pos rfl,
            show (['\\', 'n'] ++ escape_json cs) = '\\' :: 'n' :: escape_json cs from rfl,
            jsonUnescape_esc 'n' '\n' _ (by decide) (by decide), ih hcs hctlcs]
          rfl
        · have hcc : ¬ c.toNat < 32 :=
            fun hlt => h3 (hctl c (List.mem_cons_self _ _) hlt)
          rw [if_neg h1, if_neg h2, if_neg h3, if_neg hc,
            show ([c] ++ escape_json cs) = c :: escape_json cs from rfl,
            jsonUnescape_plain c _ h1 h2 hcc, ih hcs hctlcs]
          rfl

/-- C4 (witness): the amended round trip on a string with a backslash, a
double quote and a newline (its only control character). -/
theorem C4_roundtrip_witness :
    '\'' ∉ "a\"b\\c\nd".data
    ∧ (∀ c ∈ "a\"b\\c\nd".data, c.toNat < 32 → c = '\n')
    ∧ jsonUnescape (escape_json "a\"b\\c\nd".data) = some "a\"b\\c\nd".data :=
  ⟨by decide, by decide, C4_roundtrip_amended _ (by decide) (by decide)⟩

/-- C5 (counterexample): a transcription response with the non-2xx status 304
passes `check_err` (which only errors for 400-599), so the pipeline does not
terminate there and a user turn is appended — contradicting the claim for
general non-2xx statuses. -/
theorem C5_counterexample :
    (mockTr304.status < 200 ∨ 300 ≤ mockTr304.status)
    ∧ runCycle 4 [] mockTr304 mockChOk
        = Except.ok ([mkTurnStr "user" "hi"], "Sure, doing that now.")
    ∧ historyAfterCycle 4 [] mockTr304 mockChOk ≠ [] := by
  refine ⟨by decide, rfl, by decide⟩

/-- C5 (amended): for every transcription response whose status lies in
400-599 (the statuses `error_for_status` treats as errors; the claim's 401
example included), the cycle terminates fatally with a diagnostic containing
the status and the literal body text, and the history buffer is left
unchanged. -/
theorem C5_fatal_400_599 (limit : Nat) (msgs : List String) (trR chR : HttpResponse)
    (h4 : 400 ≤ trR.status) (h5 : trR.status ≤ 599) :
    (∃ d, runCycle limit msgs trR chR = Except.error d
        ∧ (∃ u v, d = u ++ toString trR.status ++ v)
        ∧ (∃ u, d = u ++ trR.body))
    ∧ historyAfterCycle limit msgs trR chR = msgs := by
  have hc : check_err trR
      = Except.error ("Error: status " ++ toString trR.status ++ ", " ++ trR.body) := by
    rw [check_err, if_pos ⟨h4, h5⟩]
  have hrun : runCycle limit msgs trR chR
      = Except.error ("Error: status " ++ toString trR.status ++ ", " ++ trR.body) := by
    unfold runCycle
    rw [hc]
  refine ⟨⟨_, hrun, ⟨"Error: status ", ", " ++ trR.body, ?_⟩,
    ⟨"Error: status " ++ toString trR.status ++ ", ", ?_⟩⟩, ?_⟩
  · simp [String.append_assoc]
  · simp [String.append_assoc]
  · unfold historyAfterCycle
    rw [hrun]

/-- C5 (witness): the fatal path at the claim's own scenario — status 401,
body containing "invalid key", empty history. -/
theorem C5_fatal_witness :
    (∃ d, runCycle 4 [] mockTr401 mockChOk = Except.error d
        ∧ (∃ u v, d = u ++ toString mockTr401.status ++ v)
        ∧ (∃ u, d = u ++ mockTr401.body))
    ∧ historyAfterCycle 4 [] mockTr401 mockChOk = [] :=
  C5_fatal_400_599 4 [] mockTr401 mockChOk (by decide) (by decide)

/-- C6 (code bug): for every reply starting with a colon and containing no
space, the split position is `len + 1`, so the style slice `&resp[1..len+1]`
is out of bounds and the program panics — it does not run without failure
with the remainder as style token and empty spoken text as the claim
states. -/
theorem C6_nospace_oob (s : List Char) (h1 : s.head? = some ':')
    (h2 : ∀ c ∈ s, c ≠ ' ') : styleWrap s = none := by
  have hf : s.findIdx? (fun c => c = ' ') = none := by
    rw [List.findIdx?_eq_none_iff]
    intro x hx
    simp [h2 x hx]
  rw [styleWrap, if_pos h1]
  simp only [hf, Option.getD_none, sliceR]
  rw [if_neg (by omega : ¬(1 ≤ s.length + 1 ∧ s.length + 1 ≤ s.length))]

/-- C6 (witness): the panic on the edge-case input ":onlystyle". -/
theorem C6_nospace_witness : styleWrap ":onlystyle".data = none :=
  C6_nospace_oob _ (by decide) (by decide)

/-- C7: the rendered messages array with an empty configured prompt omits the
system turn entirely; with a non-empty prompt the array lists the (non-empty)
serialized system turn first, followed by exactly the stored turns in buffer
order, comma-separated; rendering is a pure function of the prompt and the
buffer, so rendering twice without an intervening append yields identical
output. -/
theorem C7_render (s : String) (msgs : List String) :
    messagesArray (promptConfig s) msgs
        = "[" ++ (if s = "" then "" else mkTurnStr "system" s ++ ",") ++ " "
          ++ intercalateComma msgs ++ "]"
    ∧ (s ≠ "" → promptConfig s ≠ "")
    ∧ messagesArray (promptConfig s) msgs = messagesArray (promptConfig s) msgs := by
  refine ⟨?_, ?_, rfl⟩
  · rw [messagesArray, joinMsgs_eq]
    by_cases hs : s = ""
    · subst hs
      rw [promptConfig, if_pos rfl, if_pos rfl, if_pos rfl]
      simp [String.append_assoc]
    · rw [promptConfig, if_neg hs, if_neg (mkTurnStr_ne "system" s), if_neg hs]
      simp [String.append_assoc]
  · intro hs
    rw [promptConfig, if_neg hs]
    exact mkTurnStr_ne "system" s

/-- C7 (witness): rendering with the non-empty prompt "be nice" and a
two-turn buffer. -/
theorem C7_render_witness :
    (messagesArray (promptConfig "be nice") ["a", "b"]
        = "[" ++ (if ("be nice" : String) = "" then ""
            else mkTurnStr "system" "be nice" ++ ",") ++ " "
          ++ intercalateComma ["a", "b"] ++ "]")
    ∧ promptConfig "be nice" ≠ "" :=
  ⟨(C7_render "be nice" ["a", "b"]).1, (C7_render "be nice" ["a", "b"]).2.1 (by decide)⟩

/-- C8 (counterexample): the channel is the unbounded `mpsc::channel`: a
second key press while one signal is already pending enqueues a second
pending signal, so the "at most one pending signal" invariant fails after
two presses. -/
theorem C8_counterexample :
    chanPending [ChanEvent.press] = 1
    ∧ chanPending [ChanEvent.press, ChanEvent.press] = 2
    ∧ ¬ chanPending [ChanEvent.press, ChanEvent.press] ≤ 1 := by
  refine ⟨rfl, rfl, by decide⟩

/-- C8 (amended): the channel is an unbounded FIFO queue: along every valid
trace (one where a blocking receive only fires while a signal is pending) the
number of pending signals equals the number of matching key presses minus the
number of receives — nothing is dropped and nothing bounds the queue at
one. -/
theorem C8_unbounded_fifo (evs : List ChanEvent) (h : validTrace evs = true) :
    chanPending evs = evs.count ChanEvent.press - evs.count ChanEvent.recv := by
  induction evs using List.reverseRecOn with
  | nil => rfl
  | append_singleton pre e ih =>
    have hv := validTrace_drop_last pre e h
    have heq := ih hv
    have hle : pre.count ChanEvent.recv ≤ pre.count ChanEvent.press := by
      have h2 := validTrace_take pre hv pre.length
      rwa [List.take_length] at h2
    cases e with
    | press =>
      rw [chanPending_append_press, heq]
      simp only [List.count_append]
      rw [show ([ChanEvent.press] : List ChanEvent).count ChanEvent.press = 1 from rfl,
        show ([ChanEvent.press] : List ChanEvent).count ChanEvent.recv = 0 from rfl]
      omega
    | recv =>
      rw [chanPending_append_recv, heq]
      simp only [List.count_append]
      rw [show ([ChanEvent.recv] : List ChanEvent).count ChanEvent.press = 0 from rfl,
        show ([ChanEvent.recv] : List ChanEvent).count ChanEvent.recv = 1 from rfl]
      omega

/-- C8 (witness): a valid trace with two presses and one receive leaves one
pending signal. -/
theorem C8_unbounded_fifo_witness :
    chanPending [ChanEvent.press, ChanEvent.press, ChanEvent.recv]
      = [ChanEvent.press, ChanEvent.press, ChanEvent.recv].count ChanEvent.press
        - [ChanEvent.press, ChanEvent.press, ChanEvent.recv].count ChanEvent.recv :=
  C8_unbounded_fifo _ (by decide)

/-- C9: the content field of a stored turn is the serde_json string encoding
of the already escape_json-escaped text; decoding that wire content as a JSON
string yields the escaped text back, and whenever the transcript contains any
of the four special characters the escaped text differs from the original —
the chat endpoint receives literal escape sequences, not the original
characters. -/
theorem C9_double_escape (s : String) :
    mkTurnStr "user" s
        = "\x7b\"content\":\"" ++ String.mk (serdeEncode (escape_json s.data))
          ++ "\",\"role\":\"user\"\x7d"
    ∧ jsonUnescape (serdeEncode (escape_json s.data)) = some (escape_json s.data)
    ∧ ((∃ c ∈ s.data, isSpec c = true) → escape_json s.data ≠ s.data) := by
  refine ⟨?_, serde_roundtrip _, escape_json_ne _⟩
  rw [mkTurnStr]
  simp only [String.append_assoc]
  rw [show ("\",\"role\":\"" : String) ++ ("user" ++ "\"\x7d") = "\",\"role\":\"user\"\x7d"
    from by decide]

/-- C9 (witness): the transcript "a\nb" (with a real newline) is stored with
wire content that decodes back to the escaped text "a\\nb", which differs
from the original. -/
theorem C9_double_escape_witness :
    jsonUnescape (serdeEncode (escape_json "a\nb".data)) = some (escape_json "a\nb".data)
    ∧ escape_json "a\nb".data ≠ "a\nb".data :=
  ⟨(C9_double_escape "a\nb").2.1,
   (C9_double_escape "a\nb").2.2 ⟨'\n', by decide, by decide⟩⟩

/-- C10: with no keycode configured the trigger key is exactly F1; with
keycode `k` configured the listener signals exactly on key-press events of
`Unknown k`, and no other event — in particular no key release and no other
key press — produces a signal. -/
theorem C10_trigger_key (k : Nat) :
    triggerKey none = RKey.F1
    ∧ (∀ e, listenerEmits (some k) e = true ↔ e = RdevEvent.keyPress (RKey.Unknown k))
    ∧ (∀ e, listenerEmits none e = true ↔ e = RdevEvent.keyPress RKey.F1) := by
  refine ⟨rfl, ?_, ?_⟩ <;> intro e <;> cases e <;> simp [listenerEmits, triggerKey]
